import Mathlib

/-
Shallow embedding of the "run" edge-function gateway.

Source: the wire-contract message types of proto/types.pb.go and the
invocation path of handleRunEndpoint in the CLI entry point, which reads
the captured guest stdout and turns it into an HTTP response:

  lines := strings.Split(out.String(), "\n")
  last := lines[len(lines)-2]
  parts := strings.Split(last, "|")
  status, _ := strconv.Atoi(parts[1])
  w.WriteHeader(status)
  w.Write([]byte(parts[0]))

and, on an instantiation error,

  w.Write([]byte(err.Error()))

Strings are modelled as lists of characters; Go slice indexing that can
panic is modelled with Option (none = runtime panic).  The net/http
boundary is modelled faithfully as the client observes it: WriteHeader
panics on a status code outside 100-999 (checkWriteHeaderCode), and a
Write with no prior WriteHeader sends an implicit status 200.
-/

namespace RunGateway

/-- Model of strings.Split with a one-character separator, which is how the
handler uses it (separators are the newline and the bar).  Go returns at
least one element; splitting the empty string yields one empty element. -/
def splitc (c : Char) : List Char → List (List Char)
  | [] => [[]]
  | x :: xs =>
    if x = c then [] :: splitc c xs
    else (x :: (splitc c xs).headI) :: (splitc c xs).tail

/-- Go integer bound: strconv.Atoi parses into a 64-bit int. -/
def goIntMax : Int := 2 ^ 63 - 1

/-- Lower Go integer bound. -/
def goIntMin : Int := -(2 ^ 63)

/-- Splits an optional leading sign off an Atoi argument. -/
def splitSign : List Char → Bool × List Char
  | '-' :: r => (true, r)
  | '+' :: r => (false, r)
  | s => (false, s)

/-- Accumulates base-10 digits; any non-digit character is a syntax error. -/
def parseDigitsAux : Nat → List Char → Option Nat
  | acc, [] => some acc
  | acc, d :: ds =>
    if '0' ≤ d ∧ d ≤ '9' then
      parseDigitsAux (acc * 10 + (d.toNat - '0'.toNat)) ds
    else none

/-- A nonempty all-digit string evaluated in base 10; none on a syntax error. -/
def parseDigits : List Char → Option Nat
  | [] => none
  | ds => parseDigitsAux 0 ds

/-- The integer value strconv.Atoi returns once its error is discarded, as
the handler does with the blank identifier: 0 on a syntax error, the
nearest representable 64-bit bound on a range error. -/
def goAtoi (s : List Char) : Int :=
  match parseDigits (splitSign s).2 with
  | none => 0
  | some v =>
    let i : Int := if (splitSign s).1 then -(v : Int) else (v : Int)
    if i < goIntMin then goIntMin else if goIntMax < i then goIntMax else i

/-- strconv.Atoi with its error observed: some n exactly when the string is
a well-formed base-10 integer representable in a 64-bit int. -/
def goAtoiExact (s : List Char) : Option Int :=
  match parseDigits (splitSign s).2 with
  | none => none
  | some v =>
    let i : Int := if (splitSign s).1 then -(v : Int) else (v : Int)
    if i < goIntMin then none else if goIntMax < i then none else some i

/-- The access lines[len(lines)-2] of the handler, with Go int arithmetic:
when the split has fewer than two elements the index is negative and the
access panics (modelled as none). -/
def trailerAt (ls : List (List Char)) : Option (List Char) :=
  if ls.length < 2 then none else ls[ls.length - 2]?

/-- The processing the handler applies to the chosen trailer line: split on
every bar, panic on parts[1] when there is no bar, otherwise Atoi the
second part with the error discarded and pair it with parts[0]. -/
def trailerDecode (last : List Char) : Option (Int × List Char) :=
  let parts := splitc '|' last
  match parts[1]? with
  | none => none
  | some p1 => some (goAtoi p1, parts.headI)

/-- The full output-to-response decode of the handler: choose the line at
index length-2 of the newline split, then process it. -/
def codeDecode (out : List Char) : Option (Int × List Char) :=
  match trailerAt (splitc '\n' out) with
  | none => none
  | some last => trailerDecode last

/-- Result of one sandbox execution as the handler observes it: either the
captured stdout or the error of InstantiateModule. -/
inductive ExecResult where
  | ok (stdout : List Char)
  | err (msg : List Char)

/-- What the HTTP client observes for one request: a status/body pair, or a
handler panic (the connection is torn down without a response). -/
inductive HTTPReply where
  | reply (status : Int) (body : List Char)
  | panicked
deriving DecidableEq

/-- The per-request behaviour of handleRunEndpoint after execution: on an
execution error the handler writes the error text with no explicit status,
which the HTTP layer turns into an implicit 200; on success it decodes the
captured output and passes the extracted status to WriteHeader, which
panics when the code lies outside 100-999 (the net/http
checkWriteHeaderCode check), and otherwise sends the status and body. -/
def handleRequest (r : ExecResult) : HTTPReply :=
  match r with
  | .err msg => .reply 200 msg
  | .ok out =>
    match codeDecode out with
    | none => .panicked
    | some (st, body) =>
      if 100 ≤ st ∧ st ≤ 999 then .reply st body else .panicked

/-- Modelled from the claim wording for the refinement comparison of the
trailer split: split on the FIRST bar only, into a body and a remainder
that must parse in full as a base-10 integer. -/
def splitFirst (c : Char) : List Char → Option (List Char × List Char)
  | [] => none
  | x :: xs =>
    if x = c then some ([], xs)
    else
      match splitFirst c xs with
      | none => none
      | some (a, b) => some (x :: a, b)

/-- Modelled from the claim wording: decode a trailer by splitting on the
first bar into exactly two parts, the second of which must be an integer. -/
def specFirstSplitDecode (t : List Char) : Option (Int × List Char) :=
  match splitFirst '|' t with
  | none => none
  | some (body, rest) =>
    match goAtoiExact rest with
    | none => none
    | some n => some (n, body)

/- Wire-contract message types of proto/types.pb.go.  Go pointers to
messages are modelled as Option; the nil map and nil slice as the empty
list; int32 as Int. -/

/-- HeaderFields message: the ordered values of one header name. -/
structure HeaderFields where
  Fields : List String
deriving DecidableEq

/-- HTTPRequest message: the serialized unit crossing into the sandbox. -/
structure HTTPRequest where
  Body : List Nat
  Method : String
  URL : String
  EndpointID : String
  ID : String
  Header : List (String × Option HeaderFields)
  Runtime : String
  ActiveDeployID : String
  Env : List (String × String)

/-- HTTPResponse message: the structured result of one invocation. -/
structure HTTPResponse where
  Response : List Nat
  StatusCode : Int
  RequestID : String

/-- Nil-safe getter on the Body field. -/
def HTTPRequest.GetBody : Option HTTPRequest → List Nat
  | some x => x.Body
  | none => []

/-- Nil-safe getter on the Method field. -/
def HTTPRequest.GetMethod : Option HTTPRequest → String
  | some x => x.Method
  | none => ""

/-- Nil-safe getter on the URL field. -/
def HTTPRequest.GetURL : Option HTTPRequest → String
  | some x => x.URL
  | none => ""

/-- Nil-safe getter on the EndpointID field. -/
def HTTPRequest.GetEndpointID : Option HTTPRequest → String
  | some x => x.EndpointID
  | none => ""

/-- Nil-safe getter on the ID field. -/
def HTTPRequest.GetID : Option HTTPRequest → String
  | some x => x.ID
  | none => ""

/-- Nil-safe getter on the Header field. -/
def HTTPRequest.GetHeader : Option HTTPRequest → List (String × Option HeaderFields)
  | some x => x.Header
  | none => []

/-- Nil-safe getter on the runtime field. -/
def HTTPRequest.GetRuntime : Option HTTPRequest → String
  | some x => x.Runtime
  | none => ""

/-- Nil-safe getter on the activeDeployID field. -/
def HTTPRequest.GetActiveDeployID : Option HTTPRequest → String
  | some x => x.ActiveDeployID
  | none => ""

/-- Nil-safe getter on the Env field. -/
def HTTPRequest.GetEnv : Option HTTPRequest → List (String × String)
  | some x => x.Env
  | none => []

/-- Nil-safe getter on the fields field. -/
def HeaderFields.GetFields : Option HeaderFields → List String
  | some x => x.Fields
  | none => []

/-- Nil-safe getter on the response field. -/
def HTTPResponse.GetResponse : Option HTTPResponse → List Nat
  | some x => x.Response
  | none => []

/-- Nil-safe getter on the statusCode field. -/
def HTTPResponse.GetStatusCode : Option HTTPResponse → Int
  | some x => x.StatusCode
  | none => 0

/-- Nil-safe getter on the RequestID field. -/
def HTTPResponse.GetRequestID : Option HTTPResponse → String
  | some x => x.RequestID
  | none => ""

/- Helper lemmas about the split model. -/

theorem splitc_ne_nil (c : Char) (l : List Char) : splitc c l ≠ [] := by
  cases l with
  | nil => simp [splitc]
  | cons x xs =>
    simp only [splitc]
    split <;> simp

theorem splitc_of_not_mem (c : Char) (l : List Char) (h : c ∉ l) :
    splitc c l = [l] := by
  induction l with
  | nil => simp [splitc]
  | cons x xs ih =>
    have hx : ¬ x = c := fun he => h (he ▸ List.mem_cons_self x xs)
    have hxs : c ∉ xs := fun hm => h (List.mem_cons_of_mem x hm)
    simp [splitc, hx, ih hxs]

theorem splitc_append_cons (c : Char) (q zs : List Char) :
    splitc c (q ++ c :: zs) = splitc c q ++ splitc c zs := by
  induction q with
  | nil => simp [splitc]
  | cons x q ih =>
    by_cases hx : x = c
    · subst hx
      simp [splitc, ih]
    · cases hq : splitc c q with
      | nil => exact absurd hq (splitc_ne_nil c q)
      | cons a as =>
        simp [splitc, hx, ih, hq]

theorem trailerAt_append_two (X : List (List Char)) (T E : List Char) :
    trailerAt (X ++ [T, E]) = some T := by
  have hlen : (X ++ [T, E]).length = X.length + 2 := by simp
  unfold trailerAt
  rw [if_neg (by omega)]
  rw [hlen]
  have h2 : X.length + 2 - 2 = X.length := by omega
  rw [h2, List.getElem?_append_right (Nat.le_refl _)]
  simp

theorem goAtoi_eq_of_exact (s : List Char) (n : Int)
    (h : goAtoiExact s = some n) : goAtoi s = n := by
  unfold goAtoi
  unfold goAtoiExact at h
  cases hpd : parseDigits (splitSign s).2 with
  | none => rw [hpd] at h; exact absurd h (by simp)
  | some v =>
    rw [hpd] at h
    simp only at h ⊢
    split_ifs at h ⊢ <;> simp_all

theorem trailer_line_selected (p T : List Char)
    (hp : p = [] ∨ ∃ q, p = q ++ ['\n']) (hT : '\n' ∉ T) :
    trailerAt (splitc '\n' (p ++ (T ++ ['\n']))) = some T := by
  have hsT : splitc '\n' (T ++ ['\n']) = [T, []] := by
    have : (T ++ ['\n']) = T ++ '\n' :: ([] : List Char) := rfl
    rw [this, splitc_append_cons, splitc_of_not_mem _ _ hT]
    simp [splitc]
  rcases hp with rfl | ⟨q, rfl⟩
  · rw [List.nil_append, hsT]
    exact trailerAt_append_two [] T []
  · have hre : (q ++ ['\n']) ++ (T ++ ['\n']) = q ++ '\n' :: (T ++ ['\n']) := by
      simp
    rw [hre, splitc_append_cons, hsT]
    exact trailerAt_append_two _ T []

/-- Claim C1 counterexample: the claim asserts that for EVERY base-10
integer N in the trailer the emitted HTTP response carries status N and
the body verbatim; on the output x bar 5 newline the decode does yield
status 5 and body x, but WriteHeader(5) panics in net/http because 5 is
outside 100-999, so no response is emitted at all. -/
theorem out_of_range_status_emission_refuted :
    codeDecode ("x|5\n".toList) = some (5, "x".toList) ∧
    handleRequest (.ok ("x|5\n".toList)) = .panicked := by decide

/-- Claim C1 amended: every captured guest output ending in a well-formed
trailer line body bar N newline, with the body free of bars and line
terminators and N a base-10 integer in the Go int range, decodes to
exactly that body and status N; and whenever N lies within 100-999, the
range WriteHeader accepts, the handler emits the HTTP response with
status N and the body verbatim (outside that range WriteHeader panics
and nothing is emitted). -/
theorem wellformed_trailer_decodes
    (p body stat : List Char) (n : Int)
    (hp : p = [] ∨ ∃ q, p = q ++ ['\n'])
    (hb1 : '\n' ∉ body) (hb2 : '|' ∉ body)
    (hs1 : '\n' ∉ stat) (hs2 : '|' ∉ stat)
    (hn : goAtoiExact stat = some n) :
    codeDecode (p ++ (body ++ '|' :: stat) ++ ['\n']) = some (n, body) ∧
    (100 ≤ n ∧ n ≤ 999 →
      handleRequest (.ok (p ++ (body ++ '|' :: stat) ++ ['\n'])) =
        .reply n body) := by
  have hT : '\n' ∉ body ++ '|' :: stat := by
    intro hm
    rcases List.mem_append.mp hm with hm | hm
    · exact hb1 hm
    · rcases List.mem_cons.mp hm with hm | hm
      · exact absurd hm (by decide)
      · exact hs1 hm
  have hassoc : p ++ (body ++ '|' :: stat) ++ ['\n'] =
      p ++ ((body ++ '|' :: stat) ++ ['\n']) := by
    simp
  have hsel := trailer_line_selected p (body ++ '|' :: stat) hp hT
  have hparts : splitc '|' (body ++ '|' :: stat) = [body, stat] := by
    rw [splitc_append_cons, splitc_of_not_mem _ _ hb2,
      splitc_of_not_mem _ _ hs2]
    rfl
  have htd : trailerDecode (body ++ '|' :: stat) = some (n, body) := by
    unfold trailerDecode
    simp only [hparts]
    simp [goAtoi_eq_of_exact stat n hn]
  have hdec : codeDecode (p ++ (body ++ '|' :: stat) ++ ['\n']) =
      some (n, body) := by
    rw [hassoc]
    unfold codeDecode
    rw [hsel]
    exact htd
  refine ⟨hdec, fun hrange => ?_⟩
  simp only [handleRequest, hdec]
  rw [if_pos hrange]

/-- Witness for C1 on the concrete scenario: guest output hello bar 200
newline yields HTTP 200 with body hello. -/
theorem wellformed_trailer_decodes_witness :
    (([] : List Char) = [] ∨ ∃ q, ([] : List Char) = q ++ ['\n']) ∧
    '\n' ∉ "hello".toList ∧ '|' ∉ "hello".toList ∧
    '\n' ∉ "200".toList ∧ '|' ∉ "200".toList ∧
    goAtoiExact ("200".toList) = some 200 ∧
    (100 ≤ (200 : Int) ∧ (200 : Int) ≤ 999) ∧
    codeDecode ([] ++ ("hello".toList ++ '|' :: "200".toList) ++ ['\n']) =
      some (200, "hello".toList) ∧
    handleRequest
        (.ok ([] ++ ("hello".toList ++ '|' :: "200".toList) ++ ['\n'])) =
      .reply 200 ("hello".toList) := by
  have h := wellformed_trailer_decodes [] "hello".toList "200".toList 200
    (Or.inl rfl) (by decide) (by decide) (by decide) (by decide) (by decide)
  exact ⟨Or.inl rfl, by decide, by decide, by decide, by decide, by decide,
    by decide, h.1, h.2 (by decide)⟩

/-- Claim C2 (code bug): on an output whose trailer candidate has no bar,
for instance the single line garbage, the handler does not produce a
ProtocolError and a host 502: the parts index 1 access is out of bounds
and the handler panics, so the client receives no response at all. -/
theorem no_separator_output_panics :
    codeDecode ("garbage\n".toList) = none ∧
    handleRequest (.ok ("garbage\n".toList)) = .panicked := by decide

/-- Claim C3 (code bug): when the status field of the trailer does not
parse as an integer, the Atoi error is discarded by the blank identifier
and the fabricated status 0 reaches WriteHeader, which panics on a code
below 100, tearing down the connection; the code neither fails with a
ProtocolError nor substitutes a host-generated error status. -/
theorem nonint_status_decodes_zero_then_panics :
    codeDecode ("a|b\n".toList) = some (0, "a".toList) ∧
    handleRequest (.ok ("a|b\n".toList)) = .panicked := by decide

/-- Claim C4 (code bug): on an output whose newline split has fewer than
two elements, such as the empty output, the index length-2 is negative and
the handler panics instead of failing with a total ProtocolError. -/
theorem short_output_panics :
    (splitc '\n' ([] : List Char)).length = 1 ∧
    codeDecode ([] : List Char) = none ∧
    handleRequest (.ok []) = .panicked := by decide

/-- Claim C5: for every output with at least two elements in the newline
split, the decode depends only on the element at index length-2: earlier
lines and the final element never enter the result. -/
theorem trailer_candidate_at_len_sub_two (out : List Char)
    (h : 2 ≤ (splitc '\n' out).length) :
    codeDecode out =
      trailerDecode ((splitc '\n' out).get
        ⟨(splitc '\n' out).length - 2, by omega⟩) := by
  unfold codeDecode trailerAt
  rw [if_neg (by omega), List.getElem?_eq_getElem (by omega)]
  simp [List.get_eq_getElem]

/-- Witness for C5 on an output with a log line before the trailer. -/
theorem trailer_candidate_at_len_sub_two_witness :
    2 ≤ (splitc '\n' ("log\nhello|200\n".toList)).length ∧
    codeDecode ("log\nhello|200\n".toList) =
      trailerDecode ((splitc '\n' ("log\nhello|200\n".toList)).get
        ⟨(splitc '\n' ("log\nhello|200\n".toList)).length - 2, by decide⟩) :=
  ⟨by decide, trailer_candidate_at_len_sub_two _ (by decide)⟩

/-- Claim C6 counterexample: the claim predicts that the trailer is split
on the FIRST bar only, so that a trailer whose remainder after the first
bar is not an integer is a ProtocolError; on the output a bar 200 bar x
the code instead succeeds with status 200 and body a, while the decoder
modelled from the claim wording rejects that trailer. -/
theorem first_split_claim_refuted :
    codeDecode ("a|200|x\n".toList) = some (200, "a".toList) ∧
    specFirstSplitDecode ("a|200|x".toList) = none := by decide

/-- Claim C6 amended: the decoder splits the trailer on EVERY bar; the
response body is the part before the first bar, and the status field that
is passed to Atoi is only the segment between the first and second bars
(the whole remainder when no second bar exists), with a failed parse
yielding status 0 rather than an error. -/
theorem trailer_split_all_segments (a rest : List Char) (ha : '|' ∉ a) :
    trailerDecode (a ++ '|' :: rest) =
      some (goAtoi ((splitc '|' rest).headI), a) := by
  unfold trailerDecode
  rw [splitc_append_cons, splitc_of_not_mem _ _ ha]
  cases hr : splitc '|' rest with
  | nil => exact absurd hr (splitc_ne_nil _ _)
  | cons b bs => simp

/-- Witness for the amended C6 on the trailer a bar b bar 200: the status
field is b, whose failed parse yields status 0, and the body is a. -/
theorem trailer_split_all_segments_witness :
    ('|' ∉ "a".toList) ∧
    trailerDecode ("a".toList ++ '|' :: "b|200".toList) =
      some (goAtoi ((splitc '|' ("b|200".toList)).headI), "a".toList) ∧
    goAtoi ((splitc '|' ("b|200".toList)).headI) = 0 :=
  ⟨by decide, trailer_split_all_segments _ _ (by decide), by decide⟩

/-- Claim C7 (code bug): on any execution error the handler writes the
error text verbatim as the client-visible body, with no explicit status
(the HTTP layer then sends an implicit 200), instead of a host-chosen
error status with the detail only logged. -/
theorem exec_error_leaked_verbatim (msg : List Char) :
    handleRequest (.err msg) = .reply 200 msg := rfl

/-- Claim C10: every getter on the wire-contract message types is total
and nil-safe: on a non-nil receiver it returns the field, and on the nil
receiver it returns the zero value of the field type. -/
theorem getters_nil_safe :
    (∀ r : HTTPRequest,
      HTTPRequest.GetBody (some r) = r.Body ∧
      HTTPRequest.GetMethod (some r) = r.Method ∧
      HTTPRequest.GetURL (some r) = r.URL ∧
      HTTPRequest.GetEndpointID (some r) = r.EndpointID ∧
      HTTPRequest.GetID (some r) = r.ID ∧
      HTTPRequest.GetHeader (some r) = r.Header ∧
      HTTPRequest.GetRuntime (some r) = r.Runtime ∧
      HTTPRequest.GetActiveDeployID (some r) = r.ActiveDeployID ∧
      HTTPRequest.GetEnv (some r) = r.Env) ∧
    (HTTPRequest.GetBody none = [] ∧
      HTTPRequest.GetMethod none = "" ∧
      HTTPRequest.GetURL none = "" ∧
      HTTPRequest.GetEndpointID none = "" ∧
      HTTPRequest.GetID none = "" ∧
      HTTPRequest.GetHeader none = [] ∧
      HTTPRequest.GetRuntime none = "" ∧
      HTTPRequest.GetActiveDeployID none = "" ∧
      HTTPRequest.GetEnv none = []) ∧
    (∀ h : HeaderFields, HeaderFields.GetFields (some h) = h.Fields) ∧
    HeaderFields.GetFields none = [] ∧
    (∀ r : HTTPResponse,
      HTTPResponse.GetResponse (some r) = r.Response ∧
      HTTPResponse.GetStatusCode (some r) = r.StatusCode ∧
      HTTPResponse.GetRequestID (some r) = r.RequestID) ∧
    (HTTPResponse.GetResponse none = [] ∧
      HTTPResponse.GetStatusCode none = 0 ∧
      HTTPResponse.GetRequestID none = "") :=
  ⟨fun _ => ⟨rfl, rfl, rfl, rfl, rfl, rfl, rfl, rfl, rfl⟩,
    ⟨rfl, rfl, rfl, rfl, rfl, rfl, rfl, rfl, rfl⟩,
    fun _ => rfl, rfl,
    fun _ => ⟨rfl, rfl, rfl⟩,
    ⟨rfl, rfl, rfl⟩⟩

end RunGateway
